import Mathlib

/-!
# ArchFinn: verification of the CLI driver and the specified simulation core

The repository ships the CLI driver `archfinn/cli/main.py`; the parser
(`archfinn.parser.parser.parse_file`) and the engine
(`archfinn.core.engine`: `ArchState`, `run_scenario`) are imported by the
driver but their sources are not available, so they are modelled from the
specification where a claim depends on them.  Every definition names the
source artifact it embeds.
-/

namespace ArchFinn

/-! ## Declarative data model (spec section 3) -/

/-- Modelled from the spec: node status `healthy|degraded|failed`
(spec section 3, runtime state `nodes`). -/
inductive NodeStatus where
  | healthy
  | degraded
  | failed
deriving DecidableEq, Repr

/-- Modelled from the spec: control state `closed|open|half_open`
(spec section 3, runtime state `controls`). -/
inductive CtrlState where
  | closed
  | opened
  | halfOpen
deriving DecidableEq, Repr

/-- Modelled from the spec: assertion predicates are evaluated
"over current node statuses and tick" (spec section 4.4); the exact
predicate grammar is not observable, so a minimal closed vocabulary is
used: boolean constants, a node-failed test, and a tick lower bound. -/
inductive Pred where
  | const (b : Bool)
  | nodeFailed (id : String)
  | tickGe (n : Nat)
deriving DecidableEq, Repr

/-- Modelled from the spec: the five step kinds of spec section 3.
`WaitUntil` carries `max_ticks`. Probabilities are rationals in `[0,1]`. -/
inductive Step where
  | injectFailure (target : String) (p : ℚ)
  | advanceTick (count : Nat)
  | applyControl (id : String)
  | assertCond (pred : Pred)
  | waitUntil (pred : Pred) (maxTicks : Nat)
deriving DecidableEq, Repr

/-- Modelled from the spec: the four declaration kinds of spec section 3.
Only the scenario variant carries a `name` field (spec section 9:
"only the scenario variant carries a name field"), matching the
`hasattr(item, "name")` probing in `main.py`. -/
inductive Decl where
  | node (id : String) (attrs : List (String × String))
  | edge (src : String) (tgt : String) (kind : String)
  | control (id : String) (ctype : String) (params : List (String × String))
  | scenario (name : String) (steps : List Step)
deriving DecidableEq, Repr

/-- The `name` attribute probed by `hasattr(item, "name")` in
`main.py`: only scenario declarations carry one. -/
def Decl.nameOf : Decl → Option String
  | .scenario n _ => some n
  | _ => none

/-! ## Deterministic random stream (spec sections 3 and 4.3)

Modelled from the spec: a "seeded deterministic random-number stream"
whose draws are "uniform sample in [0,1)".  A linear congruential
generator over `Nat` stands in for the concrete stream; all claims use
only that it is a deterministic function of the seed. -/

/-- Modulus of the modelled random stream. -/
def rngMod : Nat := 2147483648

/-- Modelled from the spec: deterministic seeding of the random stream
(`state.rng.seed(args.seed)` in `main.py` line 116). -/
def rngSeed (s : Int) : Nat := s.natAbs % rngMod

/-- Modelled from the spec: one advance of the deterministic stream. -/
def rngNext (r : Nat) : Nat := (1103515245 * r + 12345) % rngMod

/-- Modelled from the spec: one "uniform sample in [0,1)" drawn from the
stream, together with the advanced stream state (spec section 4.4,
`InjectFailure`). -/
def rngDraw (r : Nat) : ℚ × Nat :=
  let r' := rngNext r
  ((r' : ℚ) / (rngMod : ℚ), r')

/-! ## Runtime state (spec section 3; constructed in `main.py` lines 115-116) -/

/-- Runtime record for one node: `{status, attributes}` (spec section 3). -/
structure NodeRT where
  status : NodeStatus
  attrs : List (String × String)
deriving DecidableEq, Repr

/-- Runtime record for one control:
`{type, parameters, state, last_transition_tick}` (spec section 3).
`guards` is modelled from the spec: a control may be "declared to guard"
an edge (spec section 4.4, failure propagation). -/
structure CtrlRT where
  ctype : String
  params : List (String × String)
  state : CtrlState
  lastTransitionTick : Nat
  guards : Option (String × String)
deriving DecidableEq, Repr

/-- The runtime state `ArchState` of `archfinn.core.engine`, as visible
from `main.py` (fields `nodes`, `edges`, `controls`, `rng`, `tick`) and
spec section 3 (event log, tick starting at 0).  Mappings are ordered
association lists. -/
structure ArchState where
  nodes : List (String × NodeRT)
  edges : List (String × String × String)
  controls : List (String × CtrlRT)
  rng : Nat
  tick : Nat
  events : List String
deriving DecidableEq, Repr

/-- The state construction at `main.py` lines 115-116:
`state = ArchState(nodes={}, edges=[], controls={})` followed by
`state.rng.seed(args.seed)`.  The remaining fields default per spec
section 3: tick starts at 0, the event log starts empty. -/
def mainInitState (seed : Int) : ArchState :=
  { nodes := [], edges := [], controls := [],
    rng := rngSeed seed, tick := 0, events := [] }

/-- Modelled from the spec: the Binder of spec section 4.3, which is not
part of the available sources.  It populates `nodes` from all `NodeDecl`s,
`edges` from all `EdgeDecl`s and `controls` from all `ControlDecl`s (all
controls starting `closed`), and seeds the random stream from the
caller-provided seed. -/
def bindState (model : List Decl) (seed : Int) : ArchState :=
  { nodes := model.filterMap fun d => match d with
      | .node id attrs => some (id, ⟨NodeStatus.healthy, attrs⟩)
      | _ => none
    edges := model.filterMap fun d => match d with
      | .edge s t k => some (s, t, k)
      | _ => none
    controls := model.filterMap fun d => match d with
      | .control id ty ps => some (id, ⟨ty, ps, CtrlState.closed, 0, none⟩)
      | _ => none
    rng := rngSeed seed, tick := 0, events := [] }

/-! ## Association-list helpers -/

/-- Lookup in an ordered association list. -/
def alookup (m : List (String × α)) (k : String) : Option α :=
  (m.find? fun e => e.1 = k).map Prod.snd

/-- In-place update of an existing key; absent keys are left untouched. -/
def aupdate (m : List (String × α)) (k : String) (f : α → α) :
    List (String × α) :=
  m.map fun e => if e.1 = k then (e.1, f e.2) else e

/-- `aupdate` never changes the key list. -/
theorem aupdate_keys (m : List (String × α)) (k : String) (f : α → α) :
    (aupdate m k f).map Prod.fst = m.map Prod.fst := by
  induction m with
  | nil => rfl
  | cons e rest ih =>
      simp only [aupdate, List.map_cons] at *
      by_cases h : e.1 = k <;> simp [h, ih]

end ArchFinn

namespace ArchFinn

/-! ## Simulation engine (spec section 4.4)

Modelled from the spec: `archfinn.core.engine.run_scenario` is imported by
`main.py` but its source is not available; the step semantics below follow
spec section 4.4 verbatim. -/

/-- Printable status name, used in propagation events such as
`B-degraded` (spec section 8, end-to-end example). -/
def statusText : NodeStatus → String
  | .healthy => "healthy"
  | .degraded => "degraded"
  | .failed => "failed"

/-- Printable form of a predicate, used in the
`assertion-failed:<predicate>` event string. -/
def Pred.text : Pred → String
  | .const true => "true"
  | .const false => "false"
  | .nodeFailed id => id ++ "-is-failed"
  | .tickGe n => "tick-ge-" ++ toString n

/-- Modelled from the spec: predicates are evaluated "over current node
statuses and tick" (spec section 4.4, `AssertCondition`). -/
def evalPred (st : ArchState) : Pred → Bool
  | .const b => b
  | .nodeFailed id =>
      match alookup st.nodes id with
      | some n => decide (n.status = NodeStatus.failed)
      | none => false
  | .tickGe n => decide (n ≤ st.tick)

/-- Modelled from the spec: status weakening along an edge,
`healthy→degraded, degraded→failed` (spec section 4.4, propagation). -/
def weaken : NodeStatus → NodeStatus
  | .healthy => .degraded
  | .degraded => .failed
  | .failed => .failed

/-- Modelled from the spec: propagation across an edge is suppressed when
"any control declared to guard that edge is currently open"
(spec section 4.4, failure propagation). -/
def edgeSuppressed (controls : List (String × CtrlRT)) (u v : String) : Bool :=
  controls.any fun c =>
    decide (c.2.guards = some (u, v)) && decide (c.2.state = CtrlState.opened)

/-- One edge considered while processing a dequeued node `u` during
propagation: if the edge leaves `u` and is not suppressed, the downstream
node is weakened and, if its status changed, an event is recorded and the
node is enqueued (spec section 4.4, failure propagation).  The
accumulator is `(nodes, events, newly enqueued)`. -/
def propStep (controls : List (String × CtrlRT)) (u : String)
    (acc : List (String × NodeRT) × List String × List String)
    (e : String × String × String) :
    List (String × NodeRT) × List String × List String :=
  if e.1 = u ∧ edgeSuppressed controls e.1 e.2.1 = false then
    match alookup acc.1 e.2.1 with
    | none => acc
    | some nrt =>
        let st' := weaken nrt.status
        if st' = nrt.status then acc
        else
          (aupdate acc.1 e.2.1 (fun n => { n with status := st' }),
           acc.2.1 ++ [e.2.1 ++ "-" ++ statusText st'],
           acc.2.2 ++ [e.2.1])
  else acc

/-- Helper for the propagation termination measure: when a declared,
unvisited node is marked visited, the count of declared unvisited nodes
strictly decreases. -/
theorem unvisited_decrease (allIds visited : List String) (u : String)
    (hu : u ∈ allIds) (hv : u ∉ visited) :
    (allIds.filter fun x => decide (x ∉ u :: visited)).length <
      (allIds.filter fun x => decide (x ∉ visited)).length := by
  have hsub : (allIds.filter fun x => decide (x ∉ u :: visited)) =
      (allIds.filter fun x => decide (x ∉ visited)).filter
        fun x => decide (x ≠ u) := by
    rw [List.filter_filter]
    apply List.filter_congr
    intro x _
    by_cases h1 : x = u <;> by_cases h2 : x ∈ visited <;>
      simp [h1, h2, List.mem_cons]
  rw [hsub]
  apply List.length_filter_lt_length_iff_exists.mpr
  exact ⟨u, by simp [List.mem_filter, hu, hv], by simp⟩

/-- Modelled from the spec: breadth-first failure propagation with a
visited set keyed by node id (spec section 4.4).  `allIds` is the list of
declared node ids; a queued id is processed only if declared and not yet
visited.  Returns the updated nodes, the updated event log, and the list
of nodes actually visited, in visit order. -/
def propagate (edges : List (String × String × String))
    (controls : List (String × CtrlRT)) (allIds : List String)
    (nodes : List (String × NodeRT)) (events : List String)
    (queue : List String) (visited : List String) :
    List (String × NodeRT) × List String × List String :=
  match queue with
  | [] => (nodes, events, [])
  | u :: rest =>
    if u ∈ visited ∨ u ∉ allIds then
      propagate edges controls allIds nodes events rest visited
    else
      let r := edges.foldl (propStep controls u) (nodes, events, [])
      let out := propagate edges controls allIds r.1 r.2.1
        (rest ++ r.2.2) (u :: visited)
      (out.1, out.2.1, u :: out.2.2)
termination_by ((allIds.filter fun x => decide (x ∉ visited)).length, queue.length)
decreasing_by
  · apply Prod.Lex.right
    simp
  · apply Prod.Lex.left
    have h := not_or.mp (by assumption)
    exact unvisited_decrease allIds visited u (not_not.mp h.2) h.1

end ArchFinn

namespace ArchFinn

/-- Modelled from the spec: the configured cooldown of a control, read
from its parameter block (spec section 4.4, `ApplyControl`). -/
def ctrlCooldown (c : CtrlRT) : Nat :=
  match alookup c.params "cooldown" with
  | some s => s.toNat?.getD 1
  | none => 1

/-- Modelled from the spec: time-triggered control transitions, evaluated
for each crossed tick in control-declaration order: an open control
becomes half_open once its cooldown has elapsed (spec section 4.4,
`AdvanceTick`). -/
def ctrlTickUpdate (tick : Nat) (c : CtrlRT) : CtrlRT :=
  if c.state = CtrlState.opened ∧ c.lastTransitionTick + ctrlCooldown c ≤ tick then
    { c with state := CtrlState.halfOpen, lastTransitionTick := tick }
  else c

/-- One tick: increments the counter, then evaluates time-triggered
control transitions in declaration order (spec section 4.4). -/
def tickOnce (st : ArchState) : ArchState :=
  { st with tick := st.tick + 1,
            controls := st.controls.map fun e =>
              (e.1, ctrlTickUpdate (st.tick + 1) e.2) }

/-- Modelled from the spec: the trip condition of a control; the concrete
condition vocabulary is not observable from the sources, abstracted as
"some declared node is failed". -/
def tripMet (st : ArchState) : Bool :=
  st.nodes.any fun e => decide (e.2.status = NodeStatus.failed)

/-- Modelled from the spec: probe success for a half_open control,
abstracted as "no declared node is failed". -/
def probeOk (st : ArchState) : Bool :=
  st.nodes.all fun e => decide (e.2.status ≠ NodeStatus.failed)

/-- Modelled from the spec: `ApplyControl(id)` advances one transition of
the control state machine: closed→open when the trip condition is met,
open→half_open once the cooldown elapsed, half_open→closed on a
successful probe and otherwise back to open; transitioning into open
appends `<id>-tripped` (spec section 4.4). -/
def applyCtrl (st : ArchState) (id : String) : ArchState :=
  match alookup st.controls id with
  | none => st
  | some c =>
    match c.state with
    | .closed =>
        if tripMet st then
          { st with
            controls := aupdate st.controls id fun c0 =>
              { c0 with state := .opened, lastTransitionTick := st.tick },
            events := st.events ++ [id ++ "-tripped"] }
        else st
    | .opened =>
        if c.lastTransitionTick + ctrlCooldown c ≤ st.tick then
          { st with controls := aupdate st.controls id fun c0 =>
              { c0 with state := .halfOpen, lastTransitionTick := st.tick } }
        else st
    | .halfOpen =>
        if probeOk st then
          { st with controls := aupdate st.controls id fun c0 =>
              { c0 with state := .closed, lastTransitionTick := st.tick } }
        else
          { st with
            controls := aupdate st.controls id fun c0 =>
              { c0 with state := .opened, lastTransitionTick := st.tick },
            events := st.events ++ [id ++ "-tripped"] }

/-- Modelled from the spec: the implementation-configured absolute tick
ceiling (spec section 4.4, termination and result). -/
def tickCeiling : Nat := 100000

/-- `AdvanceTick(n)`: n single ticks, checking the ceiling after each;
returns the state and whether the run aborted (spec section 4.4). -/
def advanceTicks : Nat → ArchState → ArchState × Bool
  | 0, st => (st, false)
  | n + 1, st =>
    let st' := tickOnce st
    if tickCeiling < st'.tick then
      ({ st' with events := st'.events ++ ["tick-limit-exceeded"] }, true)
    else advanceTicks n st'

/-- `WaitUntil(p, max_ticks)`: advances one tick at a time until the
predicate holds or max_ticks elapses; a timeout appends `wait-timeout`
and is not fatal; crossing the tick ceiling aborts (spec section 4.4). -/
def waitLoop : Nat → Pred → ArchState → ArchState × Bool
  | 0, _, st => ({ st with events := st.events ++ ["wait-timeout"] }, false)
  | n + 1, p, st =>
    if evalPred st p then (st, false)
    else
      let st' := tickOnce st
      if tickCeiling < st'.tick then
        ({ st' with events := st'.events ++ ["tick-limit-exceeded"] }, true)
      else waitLoop n p st'

/-- Outcome of one engine step: continue, or stop early with a result
classification. -/
inductive StepRes where
  | next (st : ArchState)
  | stop (st : ArchState) (result : String)
deriving DecidableEq, Repr

/-- The runtime state carried by a step outcome. -/
def StepRes.state : StepRes → ArchState
  | .next st => st
  | .stop st _ => st

/-- Modelled from the spec: one step of the simulation engine, following
the step semantics of spec section 4.4. -/
def execStep (st : ArchState) : Step → StepRes
  | .advanceTick n =>
      let r := advanceTicks n st
      if r.2 then .stop r.1 "aborted" else .next r.1
  | .injectFailure tgt p =>
      let d := rngDraw st.rng
      let st1 := { st with rng := d.2 }
      if d.1 < p then
        let st2 := { st1 with
          nodes := aupdate st1.nodes tgt fun n => { n with status := .failed },
          events := st1.events ++ [tgt ++ "-failed"] }
        let pr := propagate st2.edges st2.controls (st2.nodes.map Prod.fst)
          st2.nodes st2.events [tgt] []
        .next { st2 with nodes := pr.1, events := pr.2.1 }
      else .next st1
  | .applyControl id => .next (applyCtrl st id)
  | .assertCond p =>
      if evalPred st p then .next st
      else .stop
        { st with events := st.events ++ ["assertion-failed:" ++ p.text] }
        "failed"
  | .waitUntil p m =>
      let r := waitLoop m p st
      if r.2 then .stop r.1 "aborted" else .next r.1

/-- Runs the steps in declared order until exhaustion or an early stop;
returns the final state and the early result, when any. -/
def runSteps : ArchState → List Step → ArchState × Option String
  | st, [] => (st, none)
  | st, s :: rest =>
    match execStep st s with
    | .next st' => runSteps st' rest
    | .stop st' r => (st', some r)

/-- A node is critical when its attribute block marks it so
(spec section 4.4: result is failed "if any node marked critical ended
failed"). -/
def nodeCritical (n : NodeRT) : Bool := (alookup n.attrs "critical").isSome

/-- Normal-exhaustion result classification (spec section 4.4). -/
def finalResult (st : ArchState) : String :=
  if st.nodes.any fun e => nodeCritical e.2 && decide (e.2.status = NodeStatus.failed)
  then "failed" else "survived"

/-- The result record `{result, events, final_tick}` of spec section 4.4,
read by `main.py` as `result["result"]` and `result["events"]`. -/
structure RunResult where
  result : String
  events : List String
  finalTick : Nat
deriving DecidableEq, Repr

/-- Runs a step list to completion, returning the final state and the
result record. -/
def runStepsFull (st : ArchState) (steps : List Step) : ArchState × RunResult :=
  let r := runSteps st steps
  (r.1, ⟨r.2.getD (finalResult r.1), r.1.events, r.1.tick⟩)

/-- The step list of a declaration; only scenarios carry steps. -/
def Decl.stepsOf : Decl → List Step
  | .scenario _ steps => steps
  | _ => []

/-- Modelled from the spec: the execution entry point
`run_scenario(state, scenario)` of `archfinn.core.engine`: executes the
ordered steps of the given scenario declaration against the given runtime
state and returns the result record (spec sections 4.4 and 6). -/
def run_scenario (st : ArchState) (d : Decl) : RunResult :=
  (runStepsFull st d.stepsOf).2

/-- Variant of `run_scenario` also exposing the final runtime state, used
to reason about the random stream and the tick counter. -/
def runScenarioFull (st : ArchState) (d : Decl) : ArchState × RunResult :=
  runStepsFull st d.stepsOf

end ArchFinn

namespace ArchFinn

/-! ## CLI driver (`archfinn/cli/main.py`) -/

/-- A path as seen by `validate_file`: whether it exists on disk, and its
pathlib suffix (the extension of the final component, including the
leading dot, or empty). -/
structure PathInfo where
  onDisk : Bool
  suffix : String
deriving DecidableEq, Repr

/-- Outcome of `validate_file`: either the process exits with a code, or
the path is returned, with a flag recording whether the extension warning
was printed. -/
inductive ValidateRes where
  | exit (code : Nat)
  | ok (warned : Bool) (p : PathInfo)
deriving DecidableEq, Repr

/-- Python `str.lower`, as applied to the suffix in `main.py` line 31:
lower-cases each character. -/
def strLower (s : String) : String := ⟨s.data.map Char.toLower⟩

/-- `validate_file` from `main.py` lines 23-34: exits with code 1 when
the path does not exist; otherwise prints a warning when the lower-cased
suffix differs from `.afinn`, and returns the path. -/
def validate_file (p : PathInfo) : ValidateRes :=
  if p.onDisk = false then .exit 1
  else .ok (decide (¬ strLower p.suffix = ".afinn")) p

/-- The argparse seed default at `main.py` line 52: `--seed` has
`type=int, default=1337`. -/
def seedValue (seedArg : Option Int) : Int := seedArg.getD 1337

/-- Python truthiness of the optional `--scenario` argument: `None` and
the empty string are falsy (`if args.scenario:` at `main.py` line 85). -/
def scenArgTruthy : Option String → Bool
  | none => false
  | some s => decide (s ≠ "")

/-- Scenario selection from `main.py` lines 81-106: with a truthy
`--scenario` argument, the first declaration whose name attribute equals
it; otherwise the first declaration carrying a name attribute. -/
def findScenario (scenArg : Option String) (decls : List Decl) : Option Decl :=
  if scenArgTruthy scenArg then
    decls.find? fun d => decide (d.nameOf = scenArg)
  else
    decls.find? fun d => d.nameOf.isSome

/-- Outcome of one `main()` invocation: a fatal `sys.exit` with a code,
or a normal completion carrying the result record (process exit code 0). -/
inductive MainOutcome where
  | fatal (code : Nat)
  | done (r : RunResult)
deriving DecidableEq, Repr

/-- The driver `main()` from `main.py` lines 57-139, after argument
parsing: validates the file, parses it (the parse outcome, including the
`ast is None` check, is abstracted as an input), selects a scenario,
builds the empty runtime state, seeds it with the effective seed, and
runs the scenario; every error path calls `sys.exit(1)`.  `runf` stands
for the `run_scenario` call and returns `Except` so a raised runtime
exception is representable. -/
def mainModel (p : PathInfo)
    (parseRes : Except String (Option (List Decl)))
    (scenArg : Option String) (seedArg : Option Int)
    (runf : ArchState → Decl → Except String RunResult) : MainOutcome :=
  match validate_file p with
  | .exit c => .fatal c
  | .ok _ _ =>
    match parseRes with
    | .error _ => .fatal 1
    | .ok none => .fatal 1
    | .ok (some decls) =>
      match findScenario scenArg decls with
      | none => .fatal 1
      | some sc =>
        match runf (mainInitState (seedValue seedArg)) sc with
        | .error _ => .fatal 1
        | .ok r => .done r

end ArchFinn

namespace ArchFinn

/-! ## Claims about the CLI driver -/

/-- C10: `validate_file` terminates the process with exit code 1 exactly
when the given path does not exist; any exit it performs has code 1; and
for an existing file whose lower-cased suffix is not `.afinn` it only
prints the warning and returns the path unchanged, so execution
proceeds. -/
theorem C10_validate_exit_iff (p : PathInfo) :
    ((∃ c, validate_file p = ValidateRes.exit c) ↔ p.onDisk = false) ∧
    (∀ c, validate_file p = ValidateRes.exit c → c = 1) ∧
    (p.onDisk = true → strLower p.suffix ≠ ".afinn" →
      validate_file p = ValidateRes.ok true p) := by
  cases hp : p.onDisk <;>
    simp [validate_file, hp]

/-- Concrete instance of `C10_validate_exit_iff`: an existing `.txt` file
passes validation with the warning flag set. -/
theorem C10_witness :
    validate_file ⟨true, ".txt"⟩ = ValidateRes.ok true ⟨true, ".txt"⟩ :=
  (C10_validate_exit_iff ⟨true, ".txt"⟩).2.2 rfl (by decide)

/-- C9: without a `--seed` argument the effective seed is the fixed
default 1337, the runtime state handed to `run_scenario` is seeded from
1337, and two invocations of the driver on the same parse outcome and
scenario argument produce identical outcomes. -/
theorem C9_default_seed :
    seedValue none = 1337 ∧
    (mainInitState (seedValue none)).rng = rngSeed 1337 ∧
    (∀ p parseRes scenArg,
      mainModel p parseRes scenArg none
          (fun st d => Except.ok (run_scenario st d)) =
        mainModel p parseRes scenArg none
          (fun st d => Except.ok (run_scenario st d))) :=
  ⟨rfl, rfl, fun _ _ _ => rfl⟩

/-- C1 counterexample: the model declares node `A`, yet the runtime state
built at `main.py` lines 115-116 and handed to `run_scenario` contains no
entry for `A`: the claim fails at this input. -/
theorem C1_counterexample :
    Decl.node "A" [] ∈ [Decl.node "A" []] ∧
    alookup (mainInitState (seedValue none)).nodes "A" = none :=
  ⟨List.mem_singleton.mpr rfl, rfl⟩

/-- C1 amended: the runtime state handed to `run_scenario` by the driver
is freshly constructed with empty nodes, edges and controls collections,
tick 0, an empty event log, and the random stream seeded from the
effective seed; it is not populated from the parsed model, and the driver
outcome depends on the engine only through its behaviour on exactly that
empty state. -/
theorem C1_main_state (seed : Int) :
    (mainInitState seed).nodes = [] ∧
    (mainInitState seed).edges = [] ∧
    (mainInitState seed).controls = [] ∧
    (mainInitState seed).tick = 0 ∧
    (mainInitState seed).events = [] ∧
    (mainInitState seed).rng = rngSeed seed ∧
    (∀ p parseRes scenArg seedArg
        (runf runf2 : ArchState → Decl → Except String RunResult),
      (∀ d, runf (mainInitState (seedValue seedArg)) d =
            runf2 (mainInitState (seedValue seedArg)) d) →
      mainModel p parseRes scenArg seedArg runf =
        mainModel p parseRes scenArg seedArg runf2) := by
  refine ⟨rfl, rfl, rfl, rfl, rfl, rfl, ?_⟩
  intro p parseRes scenArg seedArg runf runf2 h
  unfold mainModel
  cases validate_file p with
  | exit c => rfl
  | ok w q =>
    cases parseRes with
    | error msg => rfl
    | ok o =>
      cases o with
      | none => rfl
      | some decls =>
        cases hf : findScenario scenArg decls with
        | none => simp only [hf]
        | some sc => simp only [hf, h sc]

/-- Concrete instance of `C1_main_state`: the driver outcome is unchanged
when the engine is replaced by one agreeing on the empty initial state. -/
theorem C1_witness :
    mainModel ⟨true, ".afinn"⟩ (Except.ok (some [Decl.scenario "s" []]))
        none none (fun st d => Except.ok (run_scenario st d)) =
      mainModel ⟨true, ".afinn"⟩ (Except.ok (some [Decl.scenario "s" []]))
        none none (fun st d => Except.ok (run_scenario st d)) :=
  (C1_main_state 1337).2.2.2.2.2.2 ⟨true, ".afinn"⟩
    (Except.ok (some [Decl.scenario "s" []])) none none _ _ (fun _ => rfl)

end ArchFinn

namespace ArchFinn

/-- C3 counterexample: with `--scenario ""` supplied and a declaration
actually named `""` present, the driver selects the declaration named
`"a"` instead, because Python truthiness treats the supplied empty string
as an absent argument; exact-name selection fails as stated. -/
theorem C3_counterexample :
    findScenario (some "") [Decl.scenario "a" [], Decl.scenario "" []] =
      some (Decl.scenario "a" []) ∧
    Decl.nameOf (Decl.scenario "a" []) ≠ some "" := by
  refine ⟨rfl, ?_⟩
  simp [Decl.nameOf]

/-- C3 amended: with a supplied non-empty scenario name the driver runs
the first declaration in model order whose name equals it exactly; with
no supplied name — or a supplied empty name, which the truthiness test of
`main.py` line 85 treats as absent — it runs the first declaration
carrying a name; and when nothing matches it exits with code 1 without
invoking the engine. -/
theorem C3_selection (scenArg : Option String) (decls : List Decl) :
    (∀ s, scenArg = some s → s ≠ "" →
      (∀ d, findScenario scenArg decls = some d →
        d.nameOf = some s ∧
        ∃ l1 l2, decls = l1 ++ d :: l2 ∧ ∀ e ∈ l1, e.nameOf ≠ some s) ∧
      (findScenario scenArg decls = none → ∀ d ∈ decls, d.nameOf ≠ some s)) ∧
    (scenArg = none ∨ scenArg = some "" →
      (∀ d, findScenario scenArg decls = some d →
        d.nameOf.isSome = true ∧
        ∃ l1 l2, decls = l1 ++ d :: l2 ∧ ∀ e ∈ l1, e.nameOf = none) ∧
      (findScenario scenArg decls = none → ∀ d ∈ decls, d.nameOf = none)) ∧
    (∀ p parseRes seedArg runf,
      p.onDisk = true → parseRes = Except.ok (some decls) →
      findScenario scenArg decls = none →
      mainModel p parseRes scenArg seedArg runf = MainOutcome.fatal 1) := by
  refine ⟨?_, ?_, ?_⟩
  · intro s hs hne
    subst hs
    have ht : scenArgTruthy (some s) = true := by simp [scenArgTruthy, hne]
    constructor
    · intro d hd
      rw [findScenario, if_pos ht] at hd
      obtain ⟨hpd, l1, l2, hsplit, hprev⟩ := List.find?_eq_some.mp hd
      refine ⟨by simpa using hpd, l1, l2, hsplit, ?_⟩
      intro e he
      have := hprev e he
      simpa using this
    · intro hn d hd
      rw [findScenario, if_pos ht] at hn
      have := List.find?_eq_none.mp hn d hd
      simpa using this
  · intro hfalsy
    have ht : scenArgTruthy scenArg = false := by
      rcases hfalsy with h | h <;> subst h <;> simp [scenArgTruthy]
    constructor
    · intro d hd
      rw [findScenario, if_neg (by simp [ht])] at hd
      obtain ⟨hpd, l1, l2, hsplit, hprev⟩ := List.find?_eq_some.mp hd
      refine ⟨hpd, l1, l2, hsplit, ?_⟩
      intro e he
      have := hprev e he
      simpa [Option.not_isSome_iff_eq_none] using this
    · intro hn d hd
      have := List.find?_eq_none.mp (by rw [findScenario, if_neg (by simp [ht])] at hn; exact hn) d hd
      simpa [Option.not_isSome_iff_eq_none] using this
  · intro p parseRes seedArg runf hdisk hparse hnone
    subst hparse
    simp [mainModel, validate_file, hdisk, hnone]

/-- Concrete instance of `C3_selection`: a missing scenario name exits
with code 1 before any simulation. -/
theorem C3_witness :
    mainModel ⟨true, ".afinn"⟩ (Except.ok (some [Decl.node "A" []]))
        (some "x") none (fun st d => Except.ok (run_scenario st d)) =
      MainOutcome.fatal 1 :=
  (C3_selection (some "x") [Decl.node "A" []]).2.2 ⟨true, ".afinn"⟩
    (Except.ok (some [Decl.node "A" []])) none
    (fun st d => Except.ok (run_scenario st d)) rfl rfl rfl

/-- C2: every parse, scenario-lookup or runtime-exception path of the
driver exits with the non-zero code 1, and a completed result record,
whatever its classification, yields a normal completion (process exit
code 0) carrying that record. -/
theorem C2_exit_discipline (p : PathInfo) (hp : p.onDisk = true)
    (scenArg : Option String) (seedArg : Option Int)
    (runf : ArchState → Decl → Except String RunResult) :
    (∀ msg, mainModel p (Except.error msg) scenArg seedArg runf =
      MainOutcome.fatal 1) ∧
    (mainModel p (Except.ok none) scenArg seedArg runf =
      MainOutcome.fatal 1) ∧
    (∀ decls, findScenario scenArg decls = none →
      mainModel p (Except.ok (some decls)) scenArg seedArg runf =
        MainOutcome.fatal 1) ∧
    (∀ decls sc msg, findScenario scenArg decls = some sc →
      runf (mainInitState (seedValue seedArg)) sc = Except.error msg →
      mainModel p (Except.ok (some decls)) scenArg seedArg runf =
        MainOutcome.fatal 1) ∧
    (∀ decls sc r, findScenario scenArg decls = some sc →
      runf (mainInitState (seedValue seedArg)) sc = Except.ok r →
      mainModel p (Except.ok (some decls)) scenArg seedArg runf =
        MainOutcome.done r) := by
  refine ⟨?_, ?_, ?_, ?_, ?_⟩
  · intro msg
    simp [mainModel, validate_file, hp]
  · simp [mainModel, validate_file, hp]
  · intro decls hnone
    simp [mainModel, validate_file, hp, hnone]
  · intro decls sc msg hsc hrun
    simp [mainModel, validate_file, hp, hsc, hrun]
  · intro decls sc r hsc hrun
    simp [mainModel, validate_file, hp, hsc, hrun]

/-- Concrete instance of `C2_exit_discipline`: a run completing with
result `failed` still yields a normal, exit-code-0 completion. -/
theorem C2_witness :
    mainModel ⟨true, ".afinn"⟩
      (Except.ok (some [Decl.scenario "s" [Step.assertCond (Pred.const false)]]))
      none none (fun st d => Except.ok (run_scenario st d)) =
      MainOutcome.done ⟨"failed", ["assertion-failed:false"], 0⟩ :=
  (C2_exit_discipline ⟨true, ".afinn"⟩ rfl none none
      (fun st d => Except.ok (run_scenario st d))).2.2.2.2
    [Decl.scenario "s" [Step.assertCond (Pred.const false)]]
    (Decl.scenario "s" [Step.assertCond (Pred.const false)])
    ⟨"failed", ["assertion-failed:false"], 0⟩ rfl rfl

end ArchFinn

namespace ArchFinn

/-! ## Frame lemmas on the engine: tick and random stream -/

/-- One tick advances the counter by exactly one. -/
theorem tickOnce_tick (st : ArchState) : (tickOnce st).tick = st.tick + 1 := rfl

/-- Ticking never touches the random stream. -/
theorem tickOnce_rng (st : ArchState) : (tickOnce st).rng = st.rng := rfl

/-- Advancing ticks never decreases the counter. -/
theorem advanceTicks_tick (n : Nat) (st : ArchState) :
    st.tick ≤ (advanceTicks n st).1.tick := by
  induction n generalizing st with
  | zero => simp [advanceTicks]
  | succ n ih =>
      simp only [advanceTicks]
      split
      · simp [tickOnce]
      · exact le_trans (Nat.le_succ _) (ih (tickOnce st))

/-- Advancing ticks never touches the random stream. -/
theorem advanceTicks_rng (n : Nat) (st : ArchState) :
    (advanceTicks n st).1.rng = st.rng := by
  induction n generalizing st with
  | zero => simp [advanceTicks]
  | succ n ih =>
      simp only [advanceTicks]
      split
      · rfl
      · exact ih (tickOnce st)

/-- The wait loop never decreases the tick counter. -/
theorem waitLoop_tick (n : Nat) (p : Pred) (st : ArchState) :
    st.tick ≤ (waitLoop n p st).1.tick := by
  induction n generalizing st with
  | zero => simp [waitLoop]
  | succ n ih =>
      simp only [waitLoop]
      split
      · exact le_refl _
      · split
        · simp [tickOnce]
        · exact le_trans (Nat.le_succ _) (ih (tickOnce st))

/-- The wait loop never touches the random stream. -/
theorem waitLoop_rng (n : Nat) (p : Pred) (st : ArchState) :
    (waitLoop n p st).1.rng = st.rng := by
  induction n generalizing st with
  | zero => simp [waitLoop]
  | succ n ih =>
      simp only [waitLoop]
      split
      · rfl
      · split
        · rfl
        · exact ih (tickOnce st)

/-- Applying a control never changes the tick. -/
theorem applyCtrl_tick (st : ArchState) (id : String) :
    (applyCtrl st id).tick = st.tick := by
  unfold applyCtrl
  split
  · rfl
  · split <;> split <;> rfl

/-- Applying a control never touches the random stream. -/
theorem applyCtrl_rng (st : ArchState) (id : String) :
    (applyCtrl st id).rng = st.rng := by
  unfold applyCtrl
  split
  · rfl
  · split <;> split <;> rfl

/-- No single engine step decreases the tick counter. -/
theorem execStep_tick (st : ArchState) (s : Step) :
    st.tick ≤ ((execStep st s).state).tick := by
  cases s with
  | injectFailure tgt p =>
      simp only [execStep]
      split <;> simp [StepRes.state]
  | advanceTick n =>
      simp only [execStep]
      split <;> simpa [StepRes.state] using advanceTicks_tick n st
  | applyControl id =>
      simpa [execStep, StepRes.state] using le_of_eq (applyCtrl_tick st id).symm
  | assertCond p =>
      simp only [execStep]
      split <;> simp [StepRes.state]
  | waitUntil p m =>
      simp only [execStep]
      split <;> simpa [StepRes.state] using waitLoop_tick m p st

/-- Every engine step leaves the random stream at an iterate of `rngNext`
on its previous value: steps draw from the stream but never reseed it. -/
theorem execStep_rng (st : ArchState) (s : Step) :
    ∃ k, ((execStep st s).state).rng = rngNext^[k] st.rng := by
  cases s with
  | injectFailure tgt p =>
      refine ⟨1, ?_⟩
      simp only [execStep]
      split <;> simp [StepRes.state, rngDraw]
  | advanceTick n =>
      refine ⟨0, ?_⟩
      simp only [execStep]
      split <;> simpa [StepRes.state] using advanceTicks_rng n st
  | applyControl id =>
      exact ⟨0, by simpa [execStep, StepRes.state] using applyCtrl_rng st id⟩
  | assertCond p =>
      refine ⟨0, ?_⟩
      simp only [execStep]
      split <;> simp [StepRes.state]
  | waitUntil p m =>
      refine ⟨0, ?_⟩
      simp only [execStep]
      split <;> simpa [StepRes.state] using waitLoop_rng m p st

/-- Running a step list never decreases the tick counter. -/
theorem runSteps_tick (steps : List Step) (st : ArchState) :
    st.tick ≤ (runSteps st steps).1.tick := by
  induction steps generalizing st with
  | nil => simp [runSteps]
  | cons s rest ih =>
      simp only [runSteps]
      cases h : execStep st s with
      | next st' =>
          have h1 := execStep_tick st s
          rw [h] at h1
          exact le_trans h1 (ih st')
      | stop st' r =>
          have h1 := execStep_tick st s
          rw [h] at h1
          exact h1

/-- Running a step list only advances the random stream by iterated
draws. -/
theorem runSteps_rng (steps : List Step) (st : ArchState) :
    ∃ k, (runSteps st steps).1.rng = rngNext^[k] st.rng := by
  induction steps generalizing st with
  | nil => exact ⟨0, rfl⟩
  | cons s rest ih =>
      simp only [runSteps]
      cases h : execStep st s with
      | next st' =>
          obtain ⟨k1, h1⟩ := execStep_rng st s
          rw [h] at h1
          simp only [StepRes.state] at h1
          obtain ⟨k2, h2⟩ := ih st'
          exact ⟨k2 + k1, by rw [h2, h1, Function.iterate_add_apply]⟩
      | stop st' r =>
          obtain ⟨k1, h1⟩ := execStep_rng st s
          rw [h] at h1
          exact ⟨k1, h1⟩

end ArchFinn

namespace ArchFinn

/-- Running a concatenation of step lists runs the first list and, unless
it stopped early, continues with the second from the reached state. -/
theorem runSteps_append (st : ArchState) (pre post : List Step) :
    runSteps st (pre ++ post) =
      match runSteps st pre with
      | (st', none) => runSteps st' post
      | (st', some r) => (st', some r) := by
  induction pre generalizing st with
  | nil => simp [runSteps]
  | cons s rest ih =>
      simp only [List.cons_append, runSteps]
      cases execStep st s with
      | next st' => exact ih st'
      | stop st' r => rfl

/-- C8: the tick counter starts at 0 — both in the state the driver hands
to the engine and in a state bound from a model by the spec Binder — and
neither a single engine step nor a whole step list ever decreases it. -/
theorem C8_tick_monotone :
    (∀ seed, (mainInitState seed).tick = 0) ∧
    (∀ model seed, (bindState model seed).tick = 0) ∧
    (∀ st s, st.tick ≤ ((execStep st s).state).tick) ∧
    (∀ st steps, st.tick ≤ (runSteps st steps).1.tick) :=
  ⟨fun _ => rfl, fun _ _ => rfl, execStep_tick,
    fun st steps => runSteps_tick steps st⟩

/-- C4: the random stream is seeded exactly once, by the driver, before
`run_scenario` is invoked: the state handed to the engine carries exactly
the stream seeded from the effective seed (and the spec Binder likewise
seeds only from the caller seed), while the engine itself only advances
the stream — the final stream state is always an iterate of `rngNext` on
the incoming one, never a reseed. -/
theorem C4_single_seeding :
    (∀ seed, (mainInitState seed).rng = rngSeed seed) ∧
    (∀ model seed, (bindState model seed).rng = rngSeed seed) ∧
    (∀ st s, ∃ k, ((execStep st s).state).rng = rngNext^[k] st.rng) ∧
    (∀ st d, ∃ k, ((runScenarioFull st d).1).rng = rngNext^[k] st.rng) :=
  ⟨fun _ => rfl, fun _ _ => rfl, execStep_rng,
    fun st d => runSteps_rng d.stepsOf st⟩

/-- C5: two executions of `run_scenario` on freshly bound runtime states
with the same seed yield identical result classification, identical
ordered event lists and identical final tick. -/
theorem C5_determinism (model : List Decl) (d : Decl) (seed : Int)
    (st1 st2 : ArchState) (h1 : st1 = bindState model seed)
    (h2 : st2 = bindState model seed) :
    (run_scenario st1 d).result = (run_scenario st2 d).result ∧
    (run_scenario st1 d).events = (run_scenario st2 d).events ∧
    (run_scenario st1 d).finalTick = (run_scenario st2 d).finalTick := by
  subst h1
  subst h2
  exact ⟨rfl, rfl, rfl⟩

/-- Concrete instance of `C5_determinism` on the end-to-end example of
the spec. -/
theorem C5_witness :
    (run_scenario (bindState [Decl.node "A" [], Decl.node "B" [],
        Decl.edge "A" "B" ""] 1)
      (Decl.scenario "s1" [Step.injectFailure "A" 1,
        Step.advanceTick 1])).events =
    (run_scenario (bindState [Decl.node "A" [], Decl.node "B" [],
        Decl.edge "A" "B" ""] 1)
      (Decl.scenario "s1" [Step.injectFailure "A" 1,
        Step.advanceTick 1])).events :=
  (C5_determinism [Decl.node "A" [], Decl.node "B" [], Decl.edge "A" "B" ""]
    (Decl.scenario "s1" [Step.injectFailure "A" 1, Step.advanceTick 1]) 1
    _ _ rfl rfl).2.1

/-- C6: when execution reaches an `AssertCondition` whose predicate is
false in the reached state, the run stops at that step with result
`failed` and the assertion-failure event appended, and none of the later
steps runs; in particular the scenario
`[Assert(false), InjectFailure(A, 1.0)]` yields result `failed`, exactly
the assertion-failure event, and never the event `A-failed`. -/
theorem C6_assert_short_circuit (st0 st : ArchState) (pre post : List Step)
    (p : Pred) (hpre : runSteps st0 pre = (st, none))
    (hp : evalPred st p = false) :
    runSteps st0 (pre ++ Step.assertCond p :: post) =
      ({ st with events := st.events ++ ["assertion-failed:" ++ p.text] },
        some "failed") ∧
    run_scenario (bindState [Decl.node "A" []] 1)
        (Decl.scenario "s" [Step.assertCond (Pred.const false),
          Step.injectFailure "A" 1]) =
      ⟨"failed", ["assertion-failed:false"], 0⟩ ∧
    "A-failed" ∉ (run_scenario (bindState [Decl.node "A" []] 1)
        (Decl.scenario "s" [Step.assertCond (Pred.const false),
          Step.injectFailure "A" 1])).events := by
  refine ⟨?_, by decide, by decide⟩
  rw [runSteps_append, hpre]
  simp [runSteps, execStep, hp]

/-- Concrete instance of `C6_assert_short_circuit`: a false assertion as
the sole step stops the run with result `failed`. -/
theorem C6_witness :
    runSteps (mainInitState 1337)
        ([] ++ Step.assertCond (Pred.const false) :: []) =
      ({ mainInitState 1337 with events := ["assertion-failed:false"] },
        some "failed") :=
  (C6_assert_short_circuit (mainInitState 1337) (mainInitState 1337) [] []
    (Pred.const false) rfl rfl).1

end ArchFinn

namespace ArchFinn

/-- Unfolding of `propagate` on an empty queue. -/
theorem propagate_nil (edges : List (String × String × String))
    (controls : List (String × CtrlRT)) (allIds : List String)
    (nodes : List (String × NodeRT)) (events visited : List String) :
    propagate edges controls allIds nodes events [] visited =
      (nodes, events, []) := by
  rw [propagate]

/-- Unfolding of `propagate` when the dequeued node is already visited or
undeclared: it is skipped without being processed. -/
theorem propagate_skip (edges : List (String × String × String))
    (controls : List (String × CtrlRT)) (allIds : List String)
    (nodes : List (String × NodeRT)) (events : List String) (u : String)
    (rest visited : List String) (h : u ∈ visited ∨ u ∉ allIds) :
    propagate edges controls allIds nodes events (u :: rest) visited =
      propagate edges controls allIds nodes events rest visited := by
  rw [propagate]
  simp [h]

/-- Unfolding of `propagate` when the dequeued node is declared and
unvisited: it is processed, marked visited, and recorded in the visit
order. -/
theorem propagate_visit (edges : List (String × String × String))
    (controls : List (String × CtrlRT)) (allIds : List String)
    (nodes : List (String × NodeRT)) (events : List String) (u : String)
    (rest visited : List String) (h : ¬(u ∈ visited ∨ u ∉ allIds)) :
    propagate edges controls allIds nodes events (u :: rest) visited =
      (let r := List.foldl (propStep controls u) (nodes, events, []) edges
       let out := propagate edges controls allIds r.1 r.2.1
         (rest ++ r.2.2) (u :: visited)
       (out.1, out.2.1, u :: out.2.2)) := by
  rw [propagate]
  simp [h]

/-- Invariant of the propagation traversal: the visit order contains no
duplicates, and every visited node is a declared node that was not in the
visited set when the invocation started. -/
theorem propagate_visit_spec (edges : List (String × String × String))
    (controls : List (String × CtrlRT)) (allIds : List String)
    (nodes : List (String × NodeRT)) (events queue visited : List String) :
    (propagate edges controls allIds nodes events queue visited).2.2.Nodup ∧
    ∀ u ∈ (propagate edges controls allIds nodes events queue visited).2.2,
      u ∈ allIds ∧ u ∉ visited := by
  induction nodes, events, queue, visited using propagate.induct edges controls allIds with
  | case1 nodes events visited =>
      rw [propagate_nil]
      simp
  | case2 nodes events visited u rest h ih =>
      rw [propagate_skip edges controls allIds nodes events u rest visited h]
      exact ih
  | case3 nodes events visited u rest h r ih =>
      obtain ⟨hnd, hmem⟩ := ih
      rw [propagate_visit edges controls allIds nodes events u rest visited h]
      have hu : u ∈ allIds ∧ u ∉ visited := by
        rcases not_or.mp h with ⟨h1, h2⟩
        exact ⟨not_not.mp h2, h1⟩
      refine ⟨List.nodup_cons.mpr
        ⟨fun hin => (hmem u hin).2 (List.mem_cons_self u _), hnd⟩, ?_⟩
      intro x hx
      rcases List.mem_cons.mp hx with hx | hx
      · subst hx
        exact hu
      · obtain ⟨hxa, hxv⟩ := hmem x hx
        exact ⟨hxa, fun hv => hxv (List.mem_cons_of_mem u hv)⟩

/-- C7: a single invocation of failure propagation — the engine invokes
it with a freshly reset (empty) visited set — visits each node at most
once (the visit order is duplicate-free and drawn from the declared node
ids) and therefore performs at most as many traversal steps as there are
declared nodes, on any graph, cyclic ones included. -/
theorem C7_propagation_bound (edges : List (String × String × String))
    (controls : List (String × CtrlRT)) (allIds : List String)
    (nodes : List (String × NodeRT)) (events : List String)
    (queue : List String) :
    (propagate edges controls allIds nodes events queue []).2.2.Nodup ∧
    (∀ u ∈ (propagate edges controls allIds nodes events queue []).2.2,
      u ∈ allIds) ∧
    (propagate edges controls allIds nodes events queue []).2.2.length ≤
      allIds.length := by
  obtain ⟨hnd, hmem⟩ :=
    propagate_visit_spec edges controls allIds nodes events queue []
  refine ⟨hnd, fun u hu => (hmem u hu).1, ?_⟩
  calc (propagate edges controls allIds nodes events queue []).2.2.length
      = (propagate edges controls allIds nodes events queue
          []).2.2.toFinset.card := (List.toFinset_card_of_nodup hnd).symm
    _ ≤ allIds.toFinset.card := by
        apply Finset.card_le_card
        intro x hx
        exact List.mem_toFinset.mpr ((hmem x (List.mem_toFinset.mp hx)).1)
    _ ≤ allIds.length := List.toFinset_card_le allIds

end ArchFinn

namespace ArchFinn

/-- Concrete instance of `C7_propagation_bound`: on a two-node graph the
traversal performs at most two steps. -/
theorem C7_witness :
    (propagate [("A", "B", "dep")] [] ["A", "B"]
      [("A", ⟨NodeStatus.failed, []⟩), ("B", ⟨NodeStatus.healthy, []⟩)]
      [] ["A"] []).2.2.length ≤ 2 :=
  (C7_propagation_bound [("A", "B", "dep")] [] ["A", "B"]
    [("A", ⟨NodeStatus.failed, []⟩), ("B", ⟨NodeStatus.healthy, []⟩)]
    [] ["A"]).2.2

end ArchFinn
